import Mathlib

/-
Verification of the ai-text-to-image-generator core against its
natural-language specification.

The Python modules are shallowly embedded:
  * utils/hf_api_handler.py  — generation client (generate_image,
    generate_multiple_images, test_api_connection)
  * utils/gallery_manager.py — gallery store (GalleryManager) and create_zip
  * utils/image_processor.py — create_thumbnail (PIL Image.thumbnail semantics)

Remote calls are modelled by an explicit oracle argument; wall-clock time is
an explicit parameter; machine integers are Nat/Int (Python integers are
unbounded, so no overflow modelling is needed).
-/

set_option linter.unusedVariables false

namespace AIImageGen

/- ============================================================
   Shared helpers: decimal rendering (Python str), substring
   search (Python `in`), lower-casing, timestamps (strftime)
   ============================================================ -/

/-- Character list of the decimal representation of a natural number,
with explicit structural fuel (the fuel is irrelevant once it exceeds the
argument).  Models Python str(n) for n ≥ 0. -/
def natStrAux : Nat → Nat → List Char
  | 0, _ => []
  | fuel + 1, n =>
    if n < 10 then [Nat.digitChar n]
    else natStrAux fuel (n / 10) ++ [Nat.digitChar (n % 10)]

/-- Python str(n) for a natural number n. -/
def natStr (n : Nat) : String := ⟨natStrAux (n + 1) n⟩

/-- Python str(v) for an integer v. -/
def intStr (v : Int) : String :=
  if v < 0 then "-" ++ natStr v.natAbs else natStr v.natAbs

/-- Does the character list hay contain needle as a contiguous run?
Models the Python substring test needle in hay. -/
def hasInfix : List Char → List Char → Bool
  | [], needle => needle.isEmpty
  | c :: t, needle => needle.isPrefixOf (c :: t) || hasInfix t needle

/-- Python needle in hay for strings. -/
def strContains (hay needle : String) : Bool := hasInfix hay.data needle.data

/-- Python str.lower restricted to ASCII case mapping (sufficient for the
ASCII needles the client matches: loading, rate, unauthorized). -/
def lowerStr (s : String) : String := ⟨s.data.map Char.toLower⟩

/-- A wall-clock timestamp as used by datetime.now(): calendar fields only
(microseconds are never formatted by this program). -/
structure Timestamp where
  year : Nat
  month : Nat
  day : Nat
  hour : Nat
  minute : Nat
  second : Nat
deriving DecidableEq, Repr

/-- Zero-padded two-digit field, as the strftime directives %m %d %H %M %S
and the Python format {:02d} render it. -/
def pad2 (n : Nat) : String := if n < 10 then "0" ++ natStr n else natStr n

/-- Zero-padded four-digit year, as strftime %Y renders it. -/
def pad4 (n : Nat) : String :=
  if n < 10 then "000" ++ natStr n
  else if n < 100 then "00" ++ natStr n
  else if n < 1000 then "0" ++ natStr n
  else natStr n

/-- strftime "%Y%m%d_%H%M%S" (used in gallery ids). -/
def tsCompact (t : Timestamp) : String :=
  pad4 t.year ++ pad2 t.month ++ pad2 t.day ++ "_" ++
    pad2 t.hour ++ pad2 t.minute ++ pad2 t.second

/-- strftime "%Y-%m-%d %H:%M:%S" (used in the archive manifest). -/
def tsHuman (t : Timestamp) : String :=
  pad4 t.year ++ "-" ++ pad2 t.month ++ "-" ++ pad2 t.day ++ " " ++
    pad2 t.hour ++ ":" ++ pad2 t.minute ++ ":" ++ pad2 t.second

/- ============================================================
   Generation client: utils/hf_api_handler.py
   ============================================================ -/

/-- The argument record of InferenceClient.text_to_image as generate_image
fills it in (src/utils/hf_api_handler.py lines 144-152).  The endpoint
accepts an optional seed; generate_image never supplies one, so the field
is set in requestFor exactly as the call site does. -/
structure T2IRequest where
  prompt : String
  model : String
  negative_prompt : Option String
  width : Nat
  height : Nat
  num_inference_steps : Nat
  guidance_scale : ℚ
  seed : Option Int

/-- The (success, image, message) triple returned by generate_image. -/
structure GenReturn (Img : Type) where
  ok : Bool
  image : Option Img
  message : String
deriving DecidableEq

/-- Error classification of hf_api_handler.py lines 173-191: the chain of
substring tests applied, in order, to the stringified exception. -/
inductive ErrClass where
  | warming
  | rateLimited
  | authInvalid
  | other
deriving DecidableEq, Repr

/-- The classification the except-branch of generate_image performs on the
error message (lines 173-187), in source order. -/
def classify (errorMsg : String) : ErrClass :=
  if strContains (lowerStr errorMsg) "loading" || strContains errorMsg "503" then
    .warming
  else if strContains errorMsg "429" || strContains (lowerStr errorMsg) "rate" then
    .rateLimited
  else if strContains errorMsg "401" || strContains (lowerStr errorMsg) "unauthorized" then
    .authInvalid
  else
    .other

/-- The user-facing message generate_image returns for each fatal error
class; .other is not fatal (the loop advances instead). -/
def fatalMessage : ErrClass → Option String
  | .warming => some "Model is loading... Please wait 30 seconds and try again."
  | .rateLimited => some "Too many requests! Wait 1 minute and try again."
  | .authInvalid => some "API key is invalid! Get a new token from Hugging Face."
  | .other => none

/-- Python truthiness of the optional HUGGINGFACE_API_KEY string:
None and the empty string are falsy. -/
def truthy : Option String → Bool
  | none => false
  | some s => !s.data.isEmpty

/-- get_client (lines 45-76): None without a truthy key, otherwise a client
(the InferenceClient constructor performs no network call; its success is
the only behaviour the callers depend on). -/
def get_client (apiKey : Option String) : Option Unit :=
  if truthy apiKey then some () else none

/-- The request generate_image issues for a given candidate model
(lines 144-152).  The seed argument of generate_image is accepted but not
forwarded: text_to_image is called without its seed parameter, so the
issued request carries no seed. -/
def requestFor (prompt negative_prompt : String) (width height num_steps : Nat)
    (guidance_scale : ℚ) (seed : Option Int) (model : String) : T2IRequest :=
  { prompt := prompt
    model := model
    negative_prompt := if negative_prompt.data.isEmpty then none else some negative_prompt
    width := width
    height := height
    num_inference_steps := num_steps
    guidance_scale := guidance_scale
    seed := none }

/-- The candidate loop of generate_image (lines 134-196).  remote is the
oracle for one text_to_image call: a raster on success, the stringified
exception on failure. -/
def tryModels {Img : Type} (remote : T2IRequest → Except String Img)
    (req : String → T2IRequest) : List String → GenReturn Img
  | [] => ⟨false, none, "Could not generate image. Please try again later."⟩
  | model :: rest =>
    match remote (req model) with
    | .ok image => ⟨true, some image, "Image generated successfully!"⟩
    | .error e =>
      match fatalMessage (classify e) with
      | some msg => ⟨false, none, msg⟩
      | none => tryModels remote req rest

/-- generate_image (lines 83-196): client check, then the fallback loop
over DEFAULT_MODEL followed by ALTERNATIVE_MODELS. -/
def generate_image {Img : Type} (remote : T2IRequest → Except String Img)
    (apiKey : Option String) (default_model : String) (alternative_models : List String)
    (prompt negative_prompt : String) (width height num_steps : Nat)
    (guidance_scale : ℚ) (seed : Option Int) : GenReturn Img :=
  match get_client apiKey with
  | none => ⟨false, none, "Could not establish API connection. Check API key."⟩
  | some _ =>
    tryModels remote
      (requestFor prompt negative_prompt width height num_steps guidance_scale seed)
      (default_model :: alternative_models)

/-- Python str.startswith at the character level. -/
def strStartsWith (s pre : String) : Bool := pre.data.isPrefixOf s.data

/-- test_api_connection (lines 203-251): presence check, then format check
(the key must start with hf_), then client construction, which performs no
network call and succeeds; the function never contacts the network. -/
def test_api_connection (apiKey : Option String) : Bool × String :=
  match apiKey with
  | none => (false, "API key not found! Check .env file.")
  | some key =>
    if !truthy (some key) then
      (false, "API key not found! Check .env file.")
    else if !strStartsWith key "hf_" then
      (false, "API key format is wrong! Should start with \x27hf_\x27.")
    else
      (true, "API connection ready.")

/-- One success entry of generate_multiple_images: the produced image
together with the seed used for that attempt (lines 321-324). -/
structure BatchEntry (Img : Type) where
  image : Option Img
  seed : Int
deriving DecidableEq

/-- generate_multiple_images (lines 258-343).  The remote oracle is indexed
by the attempt number, modelling the remote service changing between
sequential calls; now is int(time.time()), the base seed.  The 3-second
inter-attempt sleep has no observable effect in this model. -/
def generate_multiple_images {Img : Type} (remote : Nat → T2IRequest → Except String Img)
    (apiKey : Option String) (default_model : String) (alternative_models : List String)
    (prompt negative_prompt : String) (width height num_steps : Nat)
    (guidance_scale : ℚ) (count : Nat) (now : Int) :
    List (BatchEntry Img) × List String :=
  let base_seed := now
  (List.range count).foldl
    (fun acc (i : Nat) =>
      let current_seed := base_seed + (i : Int)
      let r := generate_image (remote i) apiKey default_model alternative_models
        prompt negative_prompt width height num_steps guidance_scale (some current_seed)
      if r.ok then
        (acc.1 ++ [⟨r.image, current_seed⟩], acc.2)
      else
        (acc.1, acc.2 ++ ["Image " ++ natStr (i + 1) ++ ": " ++ r.message]))
    ([], [])

/- ============================================================
   Gallery store: utils/gallery_manager.py (class GalleryManager)
   ============================================================ -/

/-- One gallery entry, the dictionary built by GalleryManager.add_image
(lines 111-121).  Img is the raster type, P the type of the parameters
dictionary (opaque to every gallery operation).  The seed key is always
present in this dictionary, holding None when no seed was supplied. -/
structure GalleryRecord (Img P : Type) where
  id : String
  image : Img
  thumbnail : Img
  prompt : String
  style : String
  parameters : P
  seed : Option Int
  created_at : Timestamp
  favorite : Bool
deriving DecidableEq

/-- The session state GalleryManager keeps: the gallery list and the
lifetime total_generated counter. -/
structure GalleryState (Img P : Type) where
  gallery : List (GalleryRecord Img P)
  total_generated : Nat
deriving DecidableEq

/-- The state _initialize_gallery sets up in a fresh session. -/
def galleryInit (Img P : Type) : GalleryState Img P := ⟨[], 0⟩

/-- The id string built at line 102:
img_ + strftime %Y%m%d_%H%M%S + _ + counter. -/
def mkImageId (now : Timestamp) (counter : Nat) : String :=
  "img_" ++ tsCompact now ++ "_" ++ natStr counter

/-- add_image (lines 84-130): build the id from the current counter,
derive a thumbnail, append the record, increment the counter, return the
id.  thumbFn stands for create_thumbnail at the fixed (256, 256) box. -/
def add_image {Img P : Type} (thumbFn : Img → Img) (image : Img)
    (prompt style : String) (parameters : P) (seed : Option Int)
    (now : Timestamp) (s : GalleryState Img P) : String × GalleryState Img P :=
  let image_id := mkImageId now s.total_generated
  let record : GalleryRecord Img P :=
    { id := image_id
      image := image
      thumbnail := thumbFn image
      prompt := prompt
      style := style
      parameters := parameters
      seed := seed
      created_at := now
      favorite := false }
  (image_id, ⟨s.gallery ++ [record], s.total_generated + 1⟩)

/-- The scan of delete_image (lines 147-154): pop the first record with a
matching id, reporting whether one was found. -/
def deleteFirst {Img P : Type} (targetId : String) :
    List (GalleryRecord Img P) → Bool × List (GalleryRecord Img P)
  | [] => (false, [])
  | r :: rs =>
    if r.id = targetId then (true, rs)
    else
      let rest := deleteFirst targetId rs
      (rest.1, r :: rest.2)

/-- delete_image (lines 132-154). -/
def delete_image {Img P : Type} (s : GalleryState Img P) (targetId : String) :
    Bool × GalleryState Img P :=
  let rest := deleteFirst targetId s.gallery
  (rest.1, ⟨rest.2, s.total_generated⟩)

/-- get_image (lines 156-173): filter by id, return the first hit or None. -/
def get_image {Img P : Type} (s : GalleryState Img P) (targetId : String) :
    Option (GalleryRecord Img P) :=
  (s.gallery.filter (fun g => g.id = targetId)).head?

/-- get_all_images (lines 175-185): list(reversed(gallery)) builds a fresh
reversed list; the stored list is not touched. -/
def get_all_images {Img P : Type} (s : GalleryState Img P) :
    List (GalleryRecord Img P) :=
  s.gallery.reverse

/-- gallery_size (lines 187-195). -/
def gallery_size {Img P : Type} (s : GalleryState Img P) : Nat :=
  s.gallery.length

/-- The scan of toggle_favorite (lines 209-216): flip the favorite flag of
the first record with a matching id and return the new flag. -/
def toggleFirst {Img P : Type} (targetId : String) :
    List (GalleryRecord Img P) → Option Bool × List (GalleryRecord Img P)
  | [] => (none, [])
  | r :: rs =>
    if r.id = targetId then
      (some (!r.favorite), { r with favorite := !r.favorite } :: rs)
    else
      let rest := toggleFirst targetId rs
      (rest.1, r :: rest.2)

/-- toggle_favorite (lines 197-216). -/
def toggle_favorite {Img P : Type} (s : GalleryState Img P) (targetId : String) :
    Option Bool × GalleryState Img P :=
  let rest := toggleFirst targetId s.gallery
  (rest.1, ⟨rest.2, s.total_generated⟩)

/-- get_favorites (lines 218-227). -/
def get_favorites {Img P : Type} (s : GalleryState Img P) :
    List (GalleryRecord Img P) :=
  s.gallery.filter (fun g => g.favorite)

/-- clear_gallery (lines 229-236): empties the list; the counter is
deliberately not reset. -/
def clear_gallery {Img P : Type} (s : GalleryState Img P) : GalleryState Img P :=
  ⟨[], s.total_generated⟩

/-- A record with its favorite flag forced to false: two records agree on
every field except possibly favorite iff their stripFav images agree. -/
def stripFav {Img P : Type} (r : GalleryRecord Img P) : GalleryRecord Img P :=
  { r with favorite := false }

/-- One user-level gallery operation, for reasoning about whole sessions. -/
inductive GalleryOp (Img P : Type) where
  | add (image : Img) (prompt style : String) (parameters : P)
      (seed : Option Int) (now : Timestamp)
  | deleteById (targetId : String)
  | toggleById (targetId : String)
  | clearAll
deriving DecidableEq

/-- State transition of one operation (return values discarded). -/
def applyOp {Img P : Type} (thumbFn : Img → Img) (s : GalleryState Img P) :
    GalleryOp Img P → GalleryState Img P
  | .add image prompt style parameters seed now =>
    (add_image thumbFn image prompt style parameters seed now s).2
  | .deleteById targetId => (delete_image s targetId).2
  | .toggleById targetId => (toggle_favorite s targetId).2
  | .clearAll => clear_gallery s

/-- State after a whole operation sequence. -/
def applyOps {Img P : Type} (thumbFn : Img → Img) (s : GalleryState Img P)
    (ops : List (GalleryOp Img P)) : GalleryState Img P :=
  ops.foldl (applyOp thumbFn) s

/-- Number of add operations in a sequence. -/
def countAdds {Img P : Type} : List (GalleryOp Img P) → Nat
  | [] => 0
  | .add _ _ _ _ _ _ :: ops => countAdds ops + 1
  | _ :: ops => countAdds ops

/-- Number of delete operations that actually remove a record (delete_image
returned True) along a run. -/
def effDeletes {Img P : Type} (thumbFn : Img → Img) :
    GalleryState Img P → List (GalleryOp Img P) → Nat
  | _, [] => 0
  | s, op :: ops =>
    let n := effDeletes thumbFn (applyOp thumbFn s op) ops
    match op with
    | .deleteById targetId => if (delete_image s targetId).1 then n + 1 else n
    | _ => n

/-- The ids returned by the add operations of a run, in order. -/
def idsGenerated {Img P : Type} (thumbFn : Img → Img) :
    GalleryState Img P → List (GalleryOp Img P) → List String
  | _, [] => []
  | s, op :: ops =>
    match op with
    | .add image prompt style parameters seed now =>
      (add_image thumbFn image prompt style parameters seed now s).1 ::
        idsGenerated thumbFn (applyOp thumbFn s op) ops
    | _ => idsGenerated thumbFn (applyOp thumbFn s op) ops

/- ============================================================
   Export packager: create_zip (gallery_manager.py lines 243-314)
   ============================================================ -/

/-- The fields create_zip reads from each record dictionary.  seedEntry
distinguishes a missing seed key (none) from a present key holding Python
None (some none) — image_data.get treats only the former as absent.
Gallery records always carry the key (see galleryToZip). -/
structure ZipRecord (Img : Type) where
  image : Img
  prompt : String
  style : String
  seedEntry : Option (Option Int)
  created_at : Timestamp
deriving DecidableEq

/-- View of a gallery record as create_zip receives it from the app:
add_image always writes the seed key, so the entry is always present. -/
def galleryToZip {Img P : Type} (r : GalleryRecord Img P) : ZipRecord Img :=
  ⟨r.image, r.prompt, r.style, some r.seed, r.created_at⟩

/-- One member of the produced archive: an encoded image or a text file. -/
inductive ZipContent (Img : Type) where
  | imageFile (image : Img) (format : String)
  | textFile (text : String)
deriving DecidableEq

/-- The characters stripped from the prompt prefix (line 284). -/
def invalidFileChars : List Char :=
  ['<', '>', ':', '\"', '/', '\\', '|', '?', '*']

/-- File name of the index-th image entry (lines 279-290): 1-based index
formatted {:02d}, an underscore, the first 30 prompt characters with the
invalid characters removed, a dot, and the format extension. -/
def zipImageName (index : Nat) (prompt file_format : String) : String :=
  let prompt_short : String :=
    ⟨(prompt.data.take 30).filter (fun c => !invalidFileChars.contains c)⟩
  let extension := if file_format = "JPEG" then "jpg" else lowerStr file_format
  pad2 (index + 1) ++ "_" ++ prompt_short ++ "." ++ extension

/-- The rendering of the seed line: image_data.get(seed, Not specified)
interpolated into the f-string.  A missing key gives the default marker; a
present key holding None prints as None. -/
def seedText : Option (Option Int) → String
  | none => "Not specified"
  | some none => "None"
  | some (some v) => intStr v

/-- One manifest block (lines 301-307). -/
def zipBlock {Img : Type} (index : Nat) (r : ZipRecord Img) : String :=
  "Image " ++ natStr (index + 1) ++ ":\n" ++
    "  Prompt: " ++ r.prompt ++ "\n" ++
    "  Style: " ++ r.style ++ "\n" ++
    "  Seed: " ++ seedText r.seedEntry ++ "\n" ++
    "  Created: " ++ tsHuman r.created_at ++ "\n" ++
    "\n"

/-- The manifest header (lines 298-299): title line plus 50 equals signs
and a blank line. -/
def zipHeader : String :=
  "AI Image Generator - Generation Info\n" ++
    ⟨List.replicate 50 '='⟩ ++ "\n\n"

/-- The whole generation_info.txt text (lines 296-307). -/
def zipMetadata {Img : Type} (images : List (ZipRecord Img)) : String :=
  zipHeader ++ String.join (images.enum.map (fun p => zipBlock p.1 p.2))

/-- create_zip (lines 243-314): one encoded image entry per record, in
enumeration order, then the manifest entry. -/
def create_zip {Img : Type} (images : List (ZipRecord Img)) (file_format : String) :
    List (String × ZipContent Img) :=
  images.enum.map
      (fun p => (zipImageName p.1 p.2.prompt file_format,
        ZipContent.imageFile p.2.image file_format))
    ++ [("generation_info.txt", ZipContent.textFile (zipMetadata images))]

/- ============================================================
   Thumbnails: image_processor.create_thumbnail (lines 309-331),
   whose work is PIL Image.thumbnail on a copy of the input
   ============================================================ -/

/-- A raster, abstracted to its pixel dimensions (the only observable
create_thumbnail changes). -/
structure Raster where
  width : Nat
  height : Nat
deriving DecidableEq, Repr

/-- Floor of a / d. -/
def floorDiv (a d : Nat) : Nat := a / d

/-- Ceiling of a / d (for d > 0). -/
def ceilDiv (a d : Nat) : Nat := (a + d - 1) / d

/-- PIL round_aspect for the width branch: pick floor or ceiling of
mh * w / h, whichever makes the aspect deviation |w/h - n/mh| smaller
(floor on ties, as Python min takes the first minimiser), then clamp to a
minimum of 1.  The comparison is done exactly, cross-multiplied by the
common positive denominator h * mh. -/
def roundAspectX (w h mh : Nat) : Nat :=
  let q1 := floorDiv (mh * w) h
  let q2 := ceilDiv (mh * w) h
  let chosen :=
    if Nat.dist (w * mh) (q1 * h) ≤ Nat.dist (w * mh) (q2 * h) then q1 else q2
  max chosen 1

/-- PIL round_aspect for the height branch: pick floor or ceiling of
mw * h / w by the key |w/h - mw/n| (0 when n = 0), exactly: for n₁ n₂ > 0
the comparison cross-multiplies to |w n₁ - h mw| n₂ ≤ |w n₂ - h mw| n₁. -/
def roundAspectY (w h mw : Nat) : Nat :=
  let q1 := floorDiv (mw * h) w
  let q2 := ceilDiv (mw * h) w
  let keyLE : Nat → Nat → Bool := fun n1 n2 =>
    if n1 = 0 then true
    else if n2 = 0 then Nat.dist (w * n1) (h * mw) = 0
    else Nat.dist (w * n1) (h * mw) * n2 ≤ Nat.dist (w * n2) (h * mw) * n1
  let chosen := if keyLE q1 q2 then q1 else q2
  max chosen 1

/-- PIL Image.thumbnail on dimensions, real arithmetic done exactly:
unchanged when the raster already fits the box, otherwise the limiting
dimension is set to the box and the other is rounded to preserve aspect. -/
def thumbnailSize (w h mw mh : Nat) : Nat × Nat :=
  if w ≤ mw ∧ h ≤ mh then (w, h)
  else if w * mh ≤ mw * h then (roundAspectX w h mh, mh)
  else (mw, roundAspectY w h mw)

/-- create_thumbnail (image_processor.py lines 309-331): thumbnail the copy
of the input to fit max_size.  The copy means the input raster itself is
left untouched, which a value-level embedding reflects by construction. -/
def create_thumbnail (r : Raster) (max_size : Nat × Nat) : Raster :=
  let p := thumbnailSize r.width r.height max_size.1 max_size.2
  ⟨p.1, p.2⟩

/- ============================================================
   Helper lemmas: decimal strings and id anatomy
   ============================================================ -/

theorem digitChar_isDigit : ∀ d, d < 10 → (Nat.digitChar d).isDigit = true := by
  decide

theorem digitChar_inj10 : ∀ a, a < 10 → ∀ b, b < 10 →
    Nat.digitChar a = Nat.digitChar b → a = b := by
  decide

theorem isDigit_ne_underscore (c : Char) (h : c.isDigit = true) : c ≠ '_' := by
  intro he
  subst he
  exact absurd h (by decide)

theorem natStrAux_irrel : ∀ f1 : Nat, ∀ f2 n : Nat, n < f1 → n < f2 →
    natStrAux f1 n = natStrAux f2 n := by
  intro f1
  induction f1 with
  | zero => intro f2 n h1 _; exact absurd h1 (Nat.not_lt_zero n)
  | succ f ih =>
    intro f2 n h1 h2
    cases f2 with
    | zero => exact absurd h2 (Nat.not_lt_zero n)
    | succ g =>
      simp only [natStrAux]
      by_cases hn : n < 10
      · simp [hn]
      · have hn10 : 10 ≤ n := Nat.le_of_not_lt hn
        have hdiv : n / 10 < n := Nat.div_lt_self (by omega) (by omega)
        have hf : n / 10 < f := by omega
        have hg : n / 10 < g := by omega
        simp only [hn, if_false]
        rw [ih g (n / 10) hf hg]

theorem natStrAux_ne_nil : ∀ f n : Nat, n < f → natStrAux f n ≠ [] := by
  intro f n h
  cases f with
  | zero => exact absurd h (Nat.not_lt_zero n)
  | succ g =>
    simp only [natStrAux]
    by_cases hn : n < 10
    · simp [hn]
    · simp [hn]

theorem natStrAux_digits : ∀ f : Nat, ∀ n : Nat, n < f →
    ∀ c ∈ natStrAux f n, c.isDigit = true := by
  intro f
  induction f with
  | zero => intro n h; exact absurd h (Nat.not_lt_zero n)
  | succ g ih =>
    intro n h c hc
    simp only [natStrAux] at hc
    by_cases hn : n < 10
    · simp [hn] at hc
      subst hc
      exact digitChar_isDigit n hn
    · simp [hn] at hc
      rcases hc with hc | hc
      · have hn10 : 10 ≤ n := Nat.le_of_not_lt hn
        have hdiv : n / 10 < n := Nat.div_lt_self (by omega) (by omega)
        exact ih (n / 10) (by omega) c hc
      · subst hc
        exact digitChar_isDigit (n % 10) (Nat.mod_lt n (by omega))

theorem natStrAux_inj : ∀ n m f1 f2 : Nat, n < f1 → m < f2 →
    natStrAux f1 n = natStrAux f2 m → n = m := by
  intro n
  induction n using Nat.strong_induction_on with
  | _ n ih =>
    intro m f1 f2 h1 h2 heq
    cases f1 with
    | zero => exact absurd h1 (Nat.not_lt_zero n)
    | succ f =>
      cases f2 with
      | zero => exact absurd h2 (Nat.not_lt_zero m)
      | succ g =>
        simp only [natStrAux] at heq
        by_cases hn : n < 10 <;> by_cases hm : m < 10
        · simp [hn, hm] at heq
          exact digitChar_inj10 n hn m hm heq
        · exfalso
          simp [hn, hm] at heq
          have hm10 : 10 ≤ m := Nat.le_of_not_lt hm
          have hdm : m / 10 < m := Nat.div_lt_self (by omega) (by omega)
          have hne := natStrAux_ne_nil g (m / 10) (by omega)
          have hlen := congrArg List.length heq
          simp only [List.length_cons, List.length_nil, List.length_append] at hlen
          exact hne (List.eq_nil_of_length_eq_zero (by omega))
        · exfalso
          simp [hn, hm] at heq
          have hn10 : 10 ≤ n := Nat.le_of_not_lt hn
          have hdn : n / 10 < n := Nat.div_lt_self (by omega) (by omega)
          have hne := natStrAux_ne_nil f (n / 10) (by omega)
          have hlen := congrArg List.length heq
          simp only [List.length_cons, List.length_nil, List.length_append] at hlen
          exact hne (List.eq_nil_of_length_eq_zero (by omega))
        · simp [hn, hm] at heq
          have hn10 : 10 ≤ n := Nat.le_of_not_lt hn
          have hm10 : 10 ≤ m := Nat.le_of_not_lt hm
          have hdn : n / 10 < n := Nat.div_lt_self (by omega) (by omega)
          have hdm : m / 10 < m := Nat.div_lt_self (by omega) (by omega)
          have hrev := congrArg List.reverse heq
          simp only [List.reverse_append, List.reverse_cons, List.reverse_nil,
            List.nil_append, List.cons_append] at hrev
          have hhead : Nat.digitChar (n % 10) = Nat.digitChar (m % 10) :=
            (List.cons.injEq _ _ _ _ ▸ hrev).1
          have htail : (natStrAux f (n / 10)).reverse = (natStrAux g (m / 10)).reverse :=
            (List.cons.injEq _ _ _ _ ▸ hrev).2
          have hmod : n % 10 = m % 10 :=
            digitChar_inj10 (n % 10) (Nat.mod_lt n (by omega)) (m % 10)
              (Nat.mod_lt m (by omega)) hhead
          have hdiveq : n / 10 = m / 10 :=
            ih (n / 10) hdn (m / 10) f g (by omega) (by omega)
              (List.reverse_injective htail)
          omega

theorem natStr_inj {n m : Nat} (h : natStr n = natStr m) : n = m := by
  have hdata : natStrAux (n + 1) n = natStrAux (m + 1) m := congrArg String.data h
  exact natStrAux_inj n m (n + 1) (m + 1) (Nat.lt_succ_self n) (Nat.lt_succ_self m) hdata

theorem natStr_data_digits (n : Nat) : ∀ c ∈ (natStr n).data, c.isDigit = true :=
  natStrAux_digits (n + 1) n (Nat.lt_succ_self n)

theorem natStr_no_underscore (n : Nat) : '_' ∉ (natStr n).data := by
  intro hmem
  exact isDigit_ne_underscore '_' (natStr_data_digits n '_' hmem) rfl

theorem data_append (s t : String) : (s ++ t).data = s.data ++ t.data := by
  cases s
  cases t
  rfl

theorem append_cons_underscore_inj :
    ∀ l1 : List Char, ∀ {l2 c1 c2 : List Char}, '_' ∉ c1 → '_' ∉ c2 →
      l1 ++ '_' :: c1 = l2 ++ '_' :: c2 → c1 = c2 := by
  intro l1
  induction l1 with
  | nil =>
    intro l2 c1 c2 h1 h2 heq
    cases l2 with
    | nil => simpa using heq
    | cons b t2 =>
      exfalso
      simp only [List.nil_append, List.cons_append, List.cons.injEq] at heq
      obtain ⟨hb, hc⟩ := heq
      apply h1
      rw [hc]
      exact List.mem_append_right t2 (hb ▸ List.mem_cons_self _ _)
  | cons a t1 ih =>
    intro l2 c1 c2 h1 h2 heq
    cases l2 with
    | nil =>
      exfalso
      simp only [List.cons_append, List.nil_append, List.cons.injEq] at heq
      obtain ⟨hb, hc⟩ := heq
      apply h2
      rw [← hc]
      exact List.mem_append_right t1 (hb.symm ▸ List.mem_cons_self _ _)
    | cons b t2 =>
      simp only [List.cons_append, List.cons.injEq] at heq
      exact ih h1 h2 heq.2

theorem mkImageId_data (t : Timestamp) (k : Nat) :
    (mkImageId t k).data =
      (("img_" ++ tsCompact t).data) ++ '_' :: (natStr k).data := by
  simp only [mkImageId, data_append, List.append_assoc]
  rfl

theorem mkImageId_counter_inj {t1 t2 : Timestamp} {k1 k2 : Nat}
    (h : mkImageId t1 k1 = mkImageId t2 k2) : k1 = k2 := by
  have hdata := congrArg String.data h
  rw [mkImageId_data, mkImageId_data] at hdata
  have hsuffix := append_cons_underscore_inj _ (natStr_no_underscore k1)
    (natStr_no_underscore k2) hdata
  have mk_data : ∀ s : String, String.mk s.data = s := fun s => by cases s; rfl
  have hstr : natStr k1 = natStr k2 := by
    rw [← mk_data (natStr k1), ← mk_data (natStr k2), hsuffix]
  exact natStr_inj hstr

/- ============================================================
   Generation client theorems (C1, C2, C6)
   ============================================================ -/

/-- C1: whenever generate_image reaches the candidate loop, the candidates
are the primary model followed by the configured alternates, tried in
order; a success returns immediately; a failure classified warming,
rate-limited or invalid-credential returns that error with no further
candidate tried (the result does not depend on the remaining candidates);
any other failure advances to the next candidate; and AllModelsFailed is
returned exactly when every candidate has failed non-fatally. -/
theorem c1_generate_image_fallback_policy {Img : Type} :
    ∀ (remote : T2IRequest → Except String Img) (req : String → T2IRequest),
    (∀ apiKey default_model alternative_models prompt negative_prompt
        width height num_steps guidance_scale seed,
      truthy apiKey = true →
      generate_image remote apiKey default_model alternative_models prompt
          negative_prompt width height num_steps guidance_scale seed =
        tryModels remote
          (requestFor prompt negative_prompt width height num_steps guidance_scale seed)
          (default_model :: alternative_models)) ∧
    (tryModels remote req [] =
      ⟨false, none, "Could not generate image. Please try again later."⟩) ∧
    (∀ model rest img, remote (req model) = .ok img →
      tryModels remote req (model :: rest) =
        ⟨true, some img, "Image generated successfully!"⟩) ∧
    (∀ model rest e msg, remote (req model) = .error e →
      fatalMessage (classify e) = some msg →
      tryModels remote req (model :: rest) = ⟨false, none, msg⟩) ∧
    (∀ model rest e, remote (req model) = .error e → classify e = .other →
      tryModels remote req (model :: rest) = tryModels remote req rest) ∧
    (∀ models, (∀ model ∈ models, ∃ e, remote (req model) = .error e ∧
        classify e = .other) →
      tryModels remote req models =
        ⟨false, none, "Could not generate image. Please try again later."⟩) := by
  intro remote req
  refine ⟨?_, rfl, ?_, ?_, ?_, ?_⟩
  · intro apiKey dm alts prompt np w h steps g seed htruthy
    simp [generate_image, get_client, htruthy]
  · intro model rest img h
    simp [tryModels, h]
  · intro model rest e msg he hmsg
    simp [tryModels, he, hmsg]
  · intro model rest e he hcls
    simp [tryModels, he, hcls, fatalMessage]
  · intro models hall
    induction models with
    | nil => rfl
    | cons model rest ih =>
      obtain ⟨e, he, hcls⟩ := hall model (List.mem_cons_self _ _)
      have hrest : ∀ m ∈ rest, ∃ e, remote (req m) = .error e ∧ classify e = .other :=
        fun m hm => hall m (List.mem_cons_of_mem _ hm)
      simp [tryModels, he, hcls, fatalMessage, ih hrest]

/-- C1 witness: with an oracle that reports a 503 on the first candidate,
the loop aborts at once with the warming message, and with an oracle that
always fails unclassified, the loop exhausts both candidates and reports
AllModelsFailed. -/
theorem c1_generate_image_fallback_policy_witness :
    @tryModels Unit (fun _ => .error "Service Unavailable 503")
        (requestFor "a cat" "" 512 512 25 (15 / 2 : ℚ) none) ["m1", "m2"] =
      ⟨false, none, "Model is loading... Please wait 30 seconds and try again."⟩ ∧
    @tryModels Unit (fun _ => .error "boom")
        (requestFor "a cat" "" 512 512 25 (15 / 2 : ℚ) none) ["m1", "m2"] =
      ⟨false, none, "Could not generate image. Please try again later."⟩ := by
  constructor
  · exact (c1_generate_image_fallback_policy (fun _ => .error "Service Unavailable 503")
      (requestFor "a cat" "" 512 512 25 (15 / 2 : ℚ) none)).2.2.2.1
      "m1" ["m2"] "Service Unavailable 503"
      "Model is loading... Please wait 30 seconds and try again." rfl (by decide)
  · exact (c1_generate_image_fallback_policy (fun _ => .error "boom")
      (requestFor "a cat" "" 512 512 25 (15 / 2 : ℚ) none)).2.2.2.2.2
      ["m1", "m2"] (fun m _ => ⟨"boom", rfl, by decide⟩)

/-- C2: the request generate_image issues to the remote endpoint never
carries the caller's seed — the seed argument is accepted but dropped
before the text_to_image call, so the request is identical to a seedless
one; in particular the batch seeds of generate_multiple_images never reach
the endpoint, contradicting the claimed reproducibility. -/
theorem c2_issued_request_drops_seed :
    (∀ (prompt negative_prompt : String) (width height num_steps : Nat)
        (guidance_scale : ℚ) (seed : Option Int) (model : String),
      (requestFor prompt negative_prompt width height num_steps guidance_scale
          seed model).seed = none ∧
      requestFor prompt negative_prompt width height num_steps guidance_scale
          seed model =
        requestFor prompt negative_prompt width height num_steps guidance_scale
          none model) ∧
    (requestFor "a cat" "" 512 512 25 (15 / 2 : ℚ) (some 42)
        "stabilityai/stable-diffusion-2-1").seed ≠ some 42 := by
  refine ⟨fun _ _ _ _ _ _ _ _ => ⟨rfl, rfl⟩, ?_⟩
  intro h
  simp [requestFor] at h

/-- Helper: a fold that routes each element into one of two
accumulator-extended lists is the pair of the two filterMaps. -/
theorem foldl_partition {γ α β : Type} (p : γ → Bool) (ent : γ → α) (msg : γ → β) :
    ∀ (l : List γ) (acc : List α × List β),
      l.foldl
          (fun acc i =>
            if p i then (acc.1 ++ [ent i], acc.2) else (acc.1, acc.2 ++ [msg i]))
          acc =
        (acc.1 ++ l.filterMap (fun i => if p i then some (ent i) else none),
          acc.2 ++ l.filterMap (fun i => if p i then none else some (msg i))) := by
  intro l
  induction l with
  | nil => intro acc; simp
  | cons i t ih =>
    intro acc
    by_cases hp : p i
    · simp [hp, ih]
    · simp [hp, ih]

/-- Helper: the two complementary filterMaps split the length of a list. -/
theorem filterMap_partition_length {γ α β : Type} (p : γ → Bool)
    (ent : γ → α) (msg : γ → β) :
    ∀ l : List γ,
      (l.filterMap (fun i => if p i then some (ent i) else none)).length +
        (l.filterMap (fun i => if p i then none else some (msg i))).length =
        l.length := by
  intro l
  induction l with
  | nil => simp
  | cons i t ih =>
    by_cases hp : p i
    · simp [hp]; omega
    · simp [hp]; omega

/-- C3: generate_multiple_images returns exactly the partition of the count
attempts into successes (with their seed, in attempt order) and indexed
error messages tagged Image i+1, so the two list lengths always sum to the
requested count and no attempt failure escapes the batch. -/
theorem c3_batch_partition {Img : Type} :
    ∀ (remote : Nat → T2IRequest → Except String Img) (apiKey : Option String)
      (default_model : String) (alternative_models : List String)
      (prompt negative_prompt : String) (width height num_steps : Nat)
      (guidance_scale : ℚ) (count : Nat) (now : Int),
      generate_multiple_images remote apiKey default_model alternative_models
          prompt negative_prompt width height num_steps guidance_scale count now =
        ((List.range count).filterMap (fun i =>
            let r := generate_image (remote i) apiKey default_model
              alternative_models prompt negative_prompt width height num_steps
              guidance_scale (some (now + (i : Int)))
            if r.ok then some ⟨r.image, now + (i : Int)⟩ else none),
          (List.range count).filterMap (fun i =>
            let r := generate_image (remote i) apiKey default_model
              alternative_models prompt negative_prompt width height num_steps
              guidance_scale (some (now + (i : Int)))
            if r.ok then none
            else some ("Image " ++ natStr (i + 1) ++ ": " ++ r.message))) ∧
      (generate_multiple_images remote apiKey default_model alternative_models
          prompt negative_prompt width height num_steps guidance_scale count
          now).1.length +
        (generate_multiple_images remote apiKey default_model alternative_models
          prompt negative_prompt width height num_steps guidance_scale count
          now).2.length = count := by
  intro remote apiKey dm alts prompt np w h steps g count now
  have hchar :
      generate_multiple_images remote apiKey dm alts prompt np w h steps g count now =
        ((List.range count).filterMap (fun i =>
            let r := generate_image (remote i) apiKey dm alts prompt np w h steps g
              (some (now + (i : Int)))
            if r.ok then some ⟨r.image, now + (i : Int)⟩ else none),
          (List.range count).filterMap (fun i =>
            let r := generate_image (remote i) apiKey dm alts prompt np w h steps g
              (some (now + (i : Int)))
            if r.ok then none
            else some ("Image " ++ natStr (i + 1) ++ ": " ++ r.message))) := by
    have := foldl_partition
      (fun i : Nat => (generate_image (remote i) apiKey dm alts prompt np w h steps g
        (some (now + (i : Int)))).ok)
      (fun i : Nat => (⟨(generate_image (remote i) apiKey dm alts prompt np w h steps g
        (some (now + (i : Int)))).image, now + (i : Int)⟩ : BatchEntry Img))
      (fun i : Nat => "Image " ++ natStr (i + 1) ++ ": " ++
        (generate_image (remote i) apiKey dm alts prompt np w h steps g
          (some (now + (i : Int)))).message)
      (List.range count) ([], [])
    simpa [generate_multiple_images] using this
  refine ⟨hchar, ?_⟩
  rw [hchar]
  simpa using filterMap_partition_length
    (fun i : Nat => (generate_image (remote i) apiKey dm alts prompt np w h steps g
      (some (now + (i : Int)))).ok)
    (fun i : Nat => (⟨(generate_image (remote i) apiKey dm alts prompt np w h steps g
      (some (now + (i : Int)))).image, now + (i : Int)⟩ : BatchEntry Img))
    (fun i : Nat => "Image " ++ natStr (i + 1) ++ ": " ++
      (generate_image (remote i) apiKey dm alts prompt np w h steps g
        (some (now + (i : Int)))).message)
    (List.range count)

/-- C6: test_api_connection fails with the missing-key message when the
credential is absent or empty, fails with the format message when it does
not start with hf_, and otherwise reports ready; it consults nothing but
the credential (its only input) and so performs no network call. -/
theorem c6_test_connection_validation :
    (∀ apiKey : Option String, truthy apiKey = false →
      test_api_connection apiKey =
        (false, "API key not found! Check .env file.")) ∧
    (∀ key : String, truthy (some key) = true → strStartsWith key "hf_" = false →
      test_api_connection (some key) =
        (false, "API key format is wrong! Should start with \x27hf_\x27.")) ∧
    (∀ key : String, strStartsWith key "hf_" = true →
      test_api_connection (some key) = (true, "API connection ready.")) := by
  refine ⟨?_, ?_, ?_⟩
  · intro apiKey h
    cases apiKey with
    | none => rfl
    | some key => simp [test_api_connection, h]
  · intro key h1 h2
    simp [test_api_connection, h1, h2]
  · intro key h
    have hne : truthy (some key) = true := by
      cases hk : key.data with
      | nil =>
        exfalso
        rw [strStartsWith, hk] at h
        simp [List.isPrefixOf] at h
      | cons c t => simp [truthy, hk]
    simp [test_api_connection, hne, h]

/-- C6 witness: a None key, an empty key, a key with the wrong prefix and a
well-formed key each produce the specified outcome. -/
theorem c6_test_connection_validation_witness :
    test_api_connection none = (false, "API key not found! Check .env file.") ∧
    test_api_connection (some "") =
      (false, "API key not found! Check .env file.") ∧
    test_api_connection (some "sk-wrongkey") =
      (false, "API key format is wrong! Should start with \x27hf_\x27.") ∧
    test_api_connection (some "hf_abc123") = (true, "API connection ready.") :=
  ⟨c6_test_connection_validation.1 none (by decide),
    c6_test_connection_validation.1 (some "") (by decide),
    c6_test_connection_validation.2.1 "sk-wrongkey" (by decide) (by decide),
    c6_test_connection_validation.2.2 "hf_abc123" (by decide)⟩

/- ============================================================
   Gallery store lemmas
   ============================================================ -/

theorem deleteFirst_not_found {Img P : Type} (targetId : String) :
    ∀ l : List (GalleryRecord Img P), (∀ r ∈ l, r.id ≠ targetId) →
      deleteFirst targetId l = (false, l) := by
  intro l
  induction l with
  | nil => intro _; rfl
  | cons r rs ih =>
    intro h
    have hr : r.id ≠ targetId := h r (List.mem_cons_self _ _)
    have hrs := ih (fun x hx => h x (List.mem_cons_of_mem _ hx))
    simp [deleteFirst, hr, hrs]

theorem deleteFirst_length {Img P : Type} (targetId : String) :
    ∀ l : List (GalleryRecord Img P),
      (deleteFirst targetId l).2.length +
        (if (deleteFirst targetId l).1 then 1 else 0) = l.length := by
  intro l
  induction l with
  | nil => rfl
  | cons r rs ih =>
    by_cases hr : r.id = targetId
    · simp [deleteFirst, hr]
    · simp only [deleteFirst, hr, if_false, List.length_cons]
      omega

theorem toggleFirst_not_found {Img P : Type} (targetId : String) :
    ∀ l : List (GalleryRecord Img P), (∀ r ∈ l, r.id ≠ targetId) →
      toggleFirst targetId l = (none, l) := by
  intro l
  induction l with
  | nil => intro _; rfl
  | cons r rs ih =>
    intro h
    have hr : r.id ≠ targetId := h r (List.mem_cons_self _ _)
    have hrs := ih (fun x hx => h x (List.mem_cons_of_mem _ hx))
    simp [toggleFirst, hr, hrs]

theorem toggleFirst_length {Img P : Type} (targetId : String) :
    ∀ l : List (GalleryRecord Img P),
      (toggleFirst targetId l).2.length = l.length := by
  intro l
  induction l with
  | nil => rfl
  | cons r rs ih =>
    by_cases hr : r.id = targetId
    · simp [toggleFirst, hr]
    · simp [toggleFirst, hr, ih]

theorem favorite_update_id {Img P : Type} (r : GalleryRecord Img P) (b : Bool) :
    ({ r with favorite := b } : GalleryRecord Img P).id = r.id := rfl

theorem favorite_update_cancel {Img P : Type} (r : GalleryRecord Img P) :
    ({ r with favorite := !(!r.favorite) } : GalleryRecord Img P) = r := by
  cases r
  simp

theorem stripFav_favorite_update {Img P : Type} (r : GalleryRecord Img P) (b : Bool) :
    stripFav ({ r with favorite := b } : GalleryRecord Img P) = stripFav r := by
  cases r
  rfl

theorem toggleFirst_found_spec {Img P : Type} (targetId : String) :
    ∀ l : List (GalleryRecord Img P), (∃ r ∈ l, r.id = targetId) →
      ∃ b, (toggleFirst targetId l).1 = some b ∧
        (toggleFirst targetId (toggleFirst targetId l).2).1 = some (!b) ∧
        (toggleFirst targetId (toggleFirst targetId l).2).2 = l ∧
        (toggleFirst targetId l).2.map stripFav = l.map stripFav := by
  intro l
  induction l with
  | nil => rintro ⟨r, hmem, _⟩; exact absurd hmem (List.not_mem_nil r)
  | cons r rs ih =>
    intro hex
    obtain ⟨rid, rimg, rth, rp, rst, rpa, rsd, rca, rfav⟩ := r
    by_cases hr : rid = targetId
    · subst hr
      refine ⟨!rfav, ?_, ?_, ?_, ?_⟩ <;> simp [toggleFirst, stripFav]
    · have hr' : (⟨rid, rimg, rth, rp, rst, rpa, rsd, rca, rfav⟩ :
          GalleryRecord Img P).id = targetId ↔ False := by
        simpa using hr
      have hex' : ∃ x ∈ rs, x.id = targetId := by
        rcases hex with ⟨x, hx, hid⟩
        rcases List.mem_cons.mp hx with hx | hx
        · subst hx
          exact absurd hid hr
        · exact ⟨x, hx, hid⟩
      obtain ⟨b, h1, h2, h3, h4⟩ := ih hex'
      refine ⟨b, ?_, ?_, ?_, ?_⟩
      · simp [toggleFirst, hr', h1]
      · simp [toggleFirst, hr', h2]
      · simp [toggleFirst, hr', h3]
      · simp [toggleFirst, hr', h4]

theorem applyOp_total {Img P : Type} (thumbFn : Img → Img)
    (s : GalleryState Img P) (op : GalleryOp Img P) :
    (applyOp thumbFn s op).total_generated =
      s.total_generated + countAdds [op] := by
  cases op <;>
    simp [applyOp, add_image, delete_image, toggle_favorite, clear_gallery, countAdds]

theorem applyOps_total {Img P : Type} (thumbFn : Img → Img) :
    ∀ (ops : List (GalleryOp Img P)) (s : GalleryState Img P),
      (applyOps thumbFn s ops).total_generated =
        s.total_generated + countAdds ops := by
  intro ops
  induction ops with
  | nil => intro s; simp [applyOps, countAdds]
  | cons op t ih =>
    intro s
    have hstep := applyOp_total thumbFn s op
    have ht := ih (applyOp thumbFn s op)
    have hfold : applyOps thumbFn s (op :: t) =
        applyOps thumbFn (applyOp thumbFn s op) t := rfl
    rw [hfold, ht, hstep]
    cases op <;> (simp [countAdds]; try omega)

theorem idsGenerated_counter_ge {Img P : Type} (thumbFn : Img → Img) :
    ∀ (ops : List (GalleryOp Img P)) (s : GalleryState Img P) (x : String),
      x ∈ idsGenerated thumbFn s ops →
      ∃ t k, s.total_generated ≤ k ∧ x = mkImageId t k := by
  intro ops
  induction ops with
  | nil => intro s x hx; exact absurd hx (List.not_mem_nil x)
  | cons op t ih =>
    intro s x hx
    have hmono : s.total_generated ≤ (applyOp thumbFn s op).total_generated := by
      rw [applyOp_total]
      omega
    cases op with
    | add image prompt style parameters seed now =>
      rcases List.mem_cons.mp hx with hx | hx
      · exact ⟨now, s.total_generated, le_refl _, hx⟩
      · obtain ⟨tt, k, hk, he⟩ := ih _ x hx
        exact ⟨tt, k, le_trans hmono hk, he⟩
    | deleteById targetId =>
      obtain ⟨tt, k, hk, he⟩ := ih _ x hx
      exact ⟨tt, k, le_trans hmono hk, he⟩
    | toggleById targetId =>
      obtain ⟨tt, k, hk, he⟩ := ih _ x hx
      exact ⟨tt, k, le_trans hmono hk, he⟩
    | clearAll =>
      obtain ⟨tt, k, hk, he⟩ := ih _ x hx
      exact ⟨tt, k, le_trans hmono hk, he⟩

theorem idsGenerated_nodup {Img P : Type} (thumbFn : Img → Img) :
    ∀ (ops : List (GalleryOp Img P)) (s : GalleryState Img P),
      (idsGenerated thumbFn s ops).Nodup := by
  intro ops
  induction ops with
  | nil => intro s; exact List.nodup_nil
  | cons op t ih =>
    intro s
    cases op with
    | add image prompt style parameters seed now =>
      refine List.nodup_cons.mpr ⟨?_, ih _⟩
      intro hmem
      obtain ⟨tt, k, hk, he⟩ := idsGenerated_counter_ge thumbFn t _ _ hmem
      have htotal : (applyOp thumbFn s
          (GalleryOp.add image prompt style parameters seed now)).total_generated =
          s.total_generated + 1 := by
        rw [applyOp_total]
        simp [countAdds]
      rw [htotal] at hk
      have := mkImageId_counter_inj he
      omega
    | deleteById targetId => exact ih _
    | toggleById targetId => exact ih _
    | clearAll => exact ih _

theorem gallery_size_run {Img P : Type} (thumbFn : Img → Img) :
    ∀ ops : List (GalleryOp Img P), GalleryOp.clearAll ∉ ops →
      ∀ s : GalleryState Img P,
        gallery_size (applyOps thumbFn s ops) + effDeletes thumbFn s ops =
          gallery_size s + countAdds ops := by
  intro ops
  induction ops with
  | nil => intro _ s; simp [applyOps, effDeletes, countAdds]
  | cons op t ih =>
    intro hnc s
    have hnct : GalleryOp.clearAll ∉ t := fun hm => hnc (List.mem_cons_of_mem _ hm)
    have hfold : applyOps thumbFn s (op :: t) =
        applyOps thumbFn (applyOp thumbFn s op) t := rfl
    cases op with
    | add image prompt style parameters seed now =>
      have hsz : gallery_size (applyOp thumbFn s
          (GalleryOp.add image prompt style parameters seed now)) =
          gallery_size s + 1 := by
        simp [applyOp, add_image, gallery_size]
      have hrec := ih hnct (applyOp thumbFn s
        (GalleryOp.add image prompt style parameters seed now))
      have hcnt : countAdds (GalleryOp.add image prompt style parameters seed now :: t) =
          countAdds t + 1 := rfl
      have heff : effDeletes thumbFn s
          (GalleryOp.add image prompt style parameters seed now :: t) =
          effDeletes thumbFn (applyOp thumbFn s
            (GalleryOp.add image prompt style parameters seed now)) t := rfl
      rw [hfold, heff, hcnt]
      omega
    | deleteById targetId =>
      have hlen := deleteFirst_length targetId s.gallery
      have hrec := ih hnct (applyOp thumbFn s (GalleryOp.deleteById targetId))
      have hsz : gallery_size (applyOp thumbFn s (GalleryOp.deleteById targetId)) =
          (deleteFirst targetId s.gallery).2.length := rfl
      have hcnt : countAdds (GalleryOp.deleteById targetId :: t) = countAdds t := rfl
      have heff : effDeletes thumbFn s (GalleryOp.deleteById targetId :: t) =
          (if (deleteFirst targetId s.gallery).1 then
            effDeletes thumbFn (applyOp thumbFn s (GalleryOp.deleteById targetId)) t + 1
          else
            effDeletes thumbFn (applyOp thumbFn s (GalleryOp.deleteById targetId)) t) := rfl
      have hglen : gallery_size s = s.gallery.length := rfl
      rw [hfold, heff, hcnt]
      by_cases hfound : (deleteFirst targetId s.gallery).1 = true
      · simp only [hfound, if_true] at hlen ⊢
        omega
      · simp only [Bool.not_eq_true] at hfound
        simp only [hfound, Bool.false_eq_true, if_false] at hlen ⊢
        omega
    | toggleById targetId =>
      have hsz : gallery_size (applyOp thumbFn s (GalleryOp.toggleById targetId)) =
          gallery_size s := by
        simp [applyOp, toggle_favorite, gallery_size, toggleFirst_length]
      have hrec := ih hnct (applyOp thumbFn s (GalleryOp.toggleById targetId))
      have hcnt : countAdds (GalleryOp.toggleById targetId :: t) = countAdds t := rfl
      have heff : effDeletes thumbFn s (GalleryOp.toggleById targetId :: t) =
          effDeletes thumbFn (applyOp thumbFn s (GalleryOp.toggleById targetId)) t := rfl
      rw [hfold, heff, hcnt]
      omega
    | clearAll => exact absurd (List.mem_cons_self _ _) hnc

/- ============================================================
   Gallery store theorems (C5, C7, C8, C10)
   ============================================================ -/

/-- C5: over every operation sequence the lifetime counter equals exactly
the number of adds (delete and clear never change it), the gallery size
obeys adds minus successful deletes with clear resetting it to zero, and
the ids handed out by add are pairwise distinct for the whole lifetime of
the store — even across identical timestamps — because the counter part of
the id strictly advances. -/
theorem c5_counter_size_and_id_uniqueness {Img P : Type} (thumbFn : Img → Img) :
    (∀ ops : List (GalleryOp Img P),
      (applyOps thumbFn (galleryInit Img P) ops).total_generated = countAdds ops) ∧
    (∀ (s : GalleryState Img P) (targetId : String),
      (delete_image s targetId).2.total_generated = s.total_generated) ∧
    (∀ (s : GalleryState Img P) (targetId : String),
      (toggle_favorite s targetId).2.total_generated = s.total_generated) ∧
    (∀ s : GalleryState Img P,
      (clear_gallery s).total_generated = s.total_generated) ∧
    (∀ ops : List (GalleryOp Img P), GalleryOp.clearAll ∉ ops →
      ∀ s : GalleryState Img P,
        gallery_size (applyOps thumbFn s ops) + effDeletes thumbFn s ops =
          gallery_size s + countAdds ops) ∧
    (∀ s : GalleryState Img P, gallery_size (clear_gallery s) = 0) ∧
    (∀ (s : GalleryState Img P) (ops : List (GalleryOp Img P)),
      (idsGenerated thumbFn s ops).Nodup) := by
  refine ⟨?_, fun _ _ => rfl, fun _ _ => rfl, fun _ => rfl,
    gallery_size_run thumbFn, fun _ => rfl, fun s ops => idsGenerated_nodup thumbFn ops s⟩
  intro ops
  rw [applyOps_total]
  simp [galleryInit]

/-- C5 witness: a run of two adds sharing one timestamp, a failed delete
and a toggle yields counter 2, net size 2, no effective delete, and two
distinct generated ids. -/
theorem c5_counter_size_and_id_uniqueness_witness :
    (applyOps (fun u : Unit => u) (galleryInit Unit Unit)
        [GalleryOp.add () "p1" "s1" () none ⟨2026, 1, 2, 3, 4, 5⟩,
          GalleryOp.add () "p2" "s2" () (some 7) ⟨2026, 1, 2, 3, 4, 5⟩,
          GalleryOp.deleteById "missing",
          GalleryOp.toggleById "missing"]).total_generated = 2 ∧
    GalleryOp.clearAll ∉
      [GalleryOp.add () "p1" "s1" () none ⟨2026, 1, 2, 3, 4, 5⟩,
        GalleryOp.add () "p2" "s2" () (some 7) ⟨2026, 1, 2, 3, 4, 5⟩,
        GalleryOp.deleteById "missing",
        GalleryOp.toggleById "missing"] ∧
    gallery_size (applyOps (fun u : Unit => u) (galleryInit Unit Unit)
        [GalleryOp.add () "p1" "s1" () none ⟨2026, 1, 2, 3, 4, 5⟩,
          GalleryOp.add () "p2" "s2" () (some 7) ⟨2026, 1, 2, 3, 4, 5⟩,
          GalleryOp.deleteById "missing",
          GalleryOp.toggleById "missing"]) +
      effDeletes (fun u : Unit => u) (galleryInit Unit Unit)
        [GalleryOp.add () "p1" "s1" () none ⟨2026, 1, 2, 3, 4, 5⟩,
          GalleryOp.add () "p2" "s2" () (some 7) ⟨2026, 1, 2, 3, 4, 5⟩,
          GalleryOp.deleteById "missing",
          GalleryOp.toggleById "missing"] =
      gallery_size (galleryInit Unit Unit) +
        @countAdds Unit Unit
          [GalleryOp.add () "p1" "s1" () none ⟨2026, 1, 2, 3, 4, 5⟩,
            GalleryOp.add () "p2" "s2" () (some 7) ⟨2026, 1, 2, 3, 4, 5⟩,
            GalleryOp.deleteById "missing",
            GalleryOp.toggleById "missing"] ∧
    (idsGenerated (fun u : Unit => u) (galleryInit Unit Unit)
        [GalleryOp.add () "p1" "s1" () none ⟨2026, 1, 2, 3, 4, 5⟩,
          GalleryOp.add () "p2" "s2" () (some 7) ⟨2026, 1, 2, 3, 4, 5⟩,
          GalleryOp.deleteById "missing",
          GalleryOp.toggleById "missing"]).Nodup := by
  refine ⟨?_, by decide, ?_, ?_⟩
  · rw [(c5_counter_size_and_id_uniqueness (fun u : Unit => u)).1]
    rfl
  · exact (c5_counter_size_and_id_uniqueness (fun u : Unit => u)).2.2.2.2.1
      _ (by decide) (galleryInit Unit Unit)
  · exact (c5_counter_size_and_id_uniqueness (fun u : Unit => u)).2.2.2.2.2.2
      (galleryInit Unit Unit) _

/-- C7: get_all_images is exactly the reverse of the stored insertion
order and leaves the stored order intact: after adding X and then Y the
stored list is gallery ++ [X, Y] while get_all_images yields Y then X then
the older records. -/
theorem c7_list_all_reverse_order {Img P : Type} (thumbFn : Img → Img) :
    (∀ s : GalleryState Img P, get_all_images s = s.gallery.reverse) ∧
    (∀ (s : GalleryState Img P) (imgX : Img) (pX stX : String) (paX : P)
        (sdX : Option Int) (nX : Timestamp) (imgY : Img) (pY stY : String)
        (paY : P) (sdY : Option Int) (nY : Timestamp),
      ∃ rX rY : GalleryRecord Img P,
        rX.prompt = pX ∧ rX.image = imgX ∧ rY.prompt = pY ∧ rY.image = imgY ∧
        ((add_image thumbFn imgY pY stY paY sdY nY
            (add_image thumbFn imgX pX stX paX sdX nX s).2).2).gallery =
          s.gallery ++ [rX, rY] ∧
        get_all_images ((add_image thumbFn imgY pY stY paY sdY nY
            (add_image thumbFn imgX pX stX paX sdX nX s).2).2) =
          rY :: rX :: s.gallery.reverse) := by
  refine ⟨fun s => rfl, ?_⟩
  intro s imgX pX stX paX sdX nX imgY pY stY paY sdY nY
  refine ⟨⟨mkImageId nX s.total_generated, imgX, thumbFn imgX, pX, stX, paX, sdX,
      nX, false⟩,
    ⟨mkImageId nY (s.total_generated + 1), imgY, thumbFn imgY, pY, stY, paY, sdY,
      nY, false⟩, rfl, rfl, rfl, rfl, ?_, ?_⟩
  · simp [add_image]
  · simp [get_all_images, add_image]

/-- C8: when the id is present, toggling it twice restores the store
exactly, the two calls return some b then some (not b), and the first
toggle changes nothing but the favorite flag of the targeted record (the
stores agree after forcing every favorite flag) and leaves the counter
alone. -/
theorem c8_toggle_favorite_involution {Img P : Type} :
    ∀ (s : GalleryState Img P) (targetId : String),
      (∃ r ∈ s.gallery, r.id = targetId) →
      ∃ b, (toggle_favorite s targetId).1 = some b ∧
        (toggle_favorite (toggle_favorite s targetId).2 targetId).1 = some (!b) ∧
        (toggle_favorite (toggle_favorite s targetId).2 targetId).2 = s ∧
        ((toggle_favorite s targetId).2).gallery.map stripFav =
          s.gallery.map stripFav ∧
        ((toggle_favorite s targetId).2).total_generated = s.total_generated := by
  intro s targetId hex
  obtain ⟨b, h1, h2, h3, h4⟩ := toggleFirst_found_spec targetId s.gallery hex
  refine ⟨b, h1, h2, ?_, h4, rfl⟩
  cases s with
  | mk gallery total =>
    simp only [toggle_favorite] at h3 ⊢
    rw [h3]

/-- C8 witness: a single-record store under its own id: toggling twice
returns some true then some false and restores the store. -/
theorem c8_toggle_favorite_involution_witness :
    ∃ b, (toggle_favorite
        (⟨[⟨"img_a_0", (), (), "p", "s", (), none, ⟨2026, 1, 2, 3, 4, 5⟩, false⟩], 1⟩ :
          GalleryState Unit Unit) "img_a_0").1 = some b ∧
      (toggle_favorite (toggle_favorite
          (⟨[⟨"img_a_0", (), (), "p", "s", (), none, ⟨2026, 1, 2, 3, 4, 5⟩, false⟩], 1⟩ :
            GalleryState Unit Unit) "img_a_0").2 "img_a_0").1 = some (!b) ∧
      (toggle_favorite (toggle_favorite
          (⟨[⟨"img_a_0", (), (), "p", "s", (), none, ⟨2026, 1, 2, 3, 4, 5⟩, false⟩], 1⟩ :
            GalleryState Unit Unit) "img_a_0").2 "img_a_0").2 =
        (⟨[⟨"img_a_0", (), (), "p", "s", (), none, ⟨2026, 1, 2, 3, 4, 5⟩, false⟩], 1⟩ :
          GalleryState Unit Unit) ∧
      ((toggle_favorite
          (⟨[⟨"img_a_0", (), (), "p", "s", (), none, ⟨2026, 1, 2, 3, 4, 5⟩, false⟩], 1⟩ :
            GalleryState Unit Unit) "img_a_0").2).gallery.map stripFav =
        ([⟨"img_a_0", (), (), "p", "s", (), none, ⟨2026, 1, 2, 3, 4, 5⟩, false⟩] :
          List (GalleryRecord Unit Unit)).map stripFav ∧
      ((toggle_favorite
          (⟨[⟨"img_a_0", (), (), "p", "s", (), none, ⟨2026, 1, 2, 3, 4, 5⟩, false⟩], 1⟩ :
            GalleryState Unit Unit) "img_a_0").2).total_generated = 1 :=
  c8_toggle_favorite_involution
    (⟨[⟨"img_a_0", (), (), "p", "s", (), none, ⟨2026, 1, 2, 3, 4, 5⟩, false⟩], 1⟩ :
      GalleryState Unit Unit) "img_a_0" (by decide)

/-- C10: on an id that matches no record, get_image returns none,
delete_image returns false, toggle_favorite returns none, and all three
leave the whole state — record list, every field, order, and lifetime
counter — exactly as it was. -/
theorem c10_missing_id_is_noop {Img P : Type} :
    ∀ (s : GalleryState Img P) (targetId : String),
      (∀ r ∈ s.gallery, r.id ≠ targetId) →
      get_image s targetId = none ∧
      delete_image s targetId = (false, s) ∧
      toggle_favorite s targetId = (none, s) := by
  intro s targetId h
  refine ⟨?_, ?_, ?_⟩
  · have hfil : s.gallery.filter (fun g => decide (g.id = targetId)) = [] := by
      rw [List.filter_eq_nil_iff]
      intro r hr
      simpa using h r hr
    simp [get_image, hfil]
  · have hd := deleteFirst_not_found targetId s.gallery h
    cases s with
    | mk gallery total =>
      simp only [delete_image] at *
      rw [hd]
  · have ht := toggleFirst_not_found targetId s.gallery h
    cases s with
    | mk gallery total =>
      simp only [toggle_favorite] at *
      rw [ht]

/-- C10 witness: a one-record store probed with an id it does not hold. -/
theorem c10_missing_id_is_noop_witness :
    get_image
        (⟨[⟨"img_a_0", (), (), "p", "s", (), none, ⟨2026, 1, 2, 3, 4, 5⟩, false⟩], 1⟩ :
          GalleryState Unit Unit) "img_b_1" = none ∧
    delete_image
        (⟨[⟨"img_a_0", (), (), "p", "s", (), none, ⟨2026, 1, 2, 3, 4, 5⟩, false⟩], 1⟩ :
          GalleryState Unit Unit) "img_b_1" =
      (false,
        (⟨[⟨"img_a_0", (), (), "p", "s", (), none, ⟨2026, 1, 2, 3, 4, 5⟩, false⟩], 1⟩ :
          GalleryState Unit Unit)) ∧
    toggle_favorite
        (⟨[⟨"img_a_0", (), (), "p", "s", (), none, ⟨2026, 1, 2, 3, 4, 5⟩, false⟩], 1⟩ :
          GalleryState Unit Unit) "img_b_1" =
      (none,
        (⟨[⟨"img_a_0", (), (), "p", "s", (), none, ⟨2026, 1, 2, 3, 4, 5⟩, false⟩], 1⟩ :
          GalleryState Unit Unit)) :=
  c10_missing_id_is_noop
    (⟨[⟨"img_a_0", (), (), "p", "s", (), none, ⟨2026, 1, 2, 3, 4, 5⟩, false⟩], 1⟩ :
      GalleryState Unit Unit) "img_b_1" (by decide)

/- ============================================================
   Export packager theorems (C4)
   ============================================================ -/

theorem pad2_head (n : Nat) :
    ∃ c t, (pad2 n).data = c :: t ∧ c.isDigit = true := by
  by_cases h : n < 10
  · refine ⟨'0', (natStr n).data, ?_, by decide⟩
    simp [pad2, h, data_append]
  · cases hd : (natStr n).data with
    | nil => exact absurd hd (natStrAux_ne_nil (n + 1) n (Nat.lt_succ_self n))
    | cons c t =>
      refine ⟨c, t, ?_, ?_⟩
      · simp [pad2, h, hd]
      · exact natStr_data_digits n c (by rw [hd]; exact List.mem_cons_self _ _)

theorem zipImageName_ne_manifest (index : Nat) (prompt file_format : String) :
    zipImageName index prompt file_format ≠ "generation_info.txt" := by
  intro h
  obtain ⟨c, t, hd, hdig⟩ := pad2_head (index + 1)
  have hdata := congrArg String.data h
  simp only [zipImageName, data_append, hd, List.cons_append, List.append_assoc]
    at hdata
  have hc : c = 'g' := (List.cons_eq_cons.mp hdata).1
  subst hc
  exact absurd hdig (by decide)

theorem getLast?_append_singleton {α : Type} :
    ∀ (l : List α) (a : α), (l ++ [a]).getLast? = some a := by
  intro l a
  induction l with
  | nil => rfl
  | cons x xs ih =>
    cases xs with
    | nil => rfl
    | cons y ys =>
      rw [List.cons_append] at ih ⊢
      rw [List.cons_append, List.getLast?_cons_cons]
      exact ih

/-- C4 counterexample: an archive built from one gallery record whose seed
is unspecified (added without a seed, so the stored seed is None): the
manifest renders the seed line as Seed: None and contains the marker
Not specified nowhere, refuting the claimed rendering. -/
theorem c4_counterexample_seed_none_rendering :
    strContains (zipMetadata [galleryToZip
        (⟨"img_x_0", (), (), "forest", "Anime", (), none, ⟨2026, 1, 2, 3, 4, 6⟩,
          false⟩ : GalleryRecord Unit Unit)]) "Not specified" = false ∧
    strContains (zipMetadata [galleryToZip
        (⟨"img_x_0", (), (), "forest", "Anime", (), none, ⟨2026, 1, 2, 3, 4, 6⟩,
          false⟩ : GalleryRecord Unit Unit)]) "Seed: None" = true := by
  constructor
  · decide
  · decide

/-- C4 (amended): create_zip yields exactly one image entry per record, in
input order, named from the 1-based index and the sanitized prompt prefix,
plus exactly one manifest entry generation_info.txt, the last archive
member, whose text is the header followed by one block per record in input
order (prompt, style, seed line, creation time); the seed line shows the
integer seed, the string None when a gallery record carries no seed, and
the marker Not specified only when the seed key is missing from the record
dictionary altogether — which gallery records never are, since add_image
always writes the key. -/
theorem c4_archive_structure {Img P : Type} :
    ∀ (images : List (ZipRecord Img)) (file_format : String),
      (create_zip images file_format).length = images.length + 1 ∧
      ((create_zip images file_format).map Prod.fst).count "generation_info.txt"
          = 1 ∧
      ((create_zip images file_format).take images.length).map Prod.fst =
        images.enum.map (fun p => zipImageName p.1 p.2.prompt file_format) ∧
      ((create_zip images file_format).take images.length).map Prod.snd =
        images.map (fun r => ZipContent.imageFile r.image file_format) ∧
      (create_zip images file_format).getLast? =
        some ("generation_info.txt", ZipContent.textFile
          (zipHeader ++ String.join (images.enum.map (fun p => zipBlock p.1 p.2)))) ∧
      seedText none = "Not specified" ∧
      seedText (some none) = "None" ∧
      (∀ v : Int, seedText (some (some v)) = intStr v) ∧
      (∀ r : GalleryRecord Img P, (galleryToZip r).seedEntry = some r.seed) := by
  intro images file_format
  have hlen : (images.enum.map
      (fun p => (zipImageName p.1 p.2.prompt file_format,
        ZipContent.imageFile p.2.image file_format))).length = images.length := by
    simp
  refine ⟨?_, ?_, ?_, ?_, ?_, rfl, rfl, fun _ => rfl, fun _ => rfl⟩
  · simp [create_zip]
  · rw [create_zip, List.map_append, List.count_append]
    have h0 : ((images.enum.map
        (fun p => (zipImageName p.1 p.2.prompt file_format,
          ZipContent.imageFile p.2.image file_format))).map
            Prod.fst).count "generation_info.txt" = 0 := by
      rw [List.count_eq_zero]
      intro hmem
      rw [List.map_map] at hmem
      obtain ⟨p, _, hp⟩ := List.mem_map.mp hmem
      exact zipImageName_ne_manifest p.1 p.2.prompt file_format hp
    rw [h0]
    rfl
  · rw [create_zip, ← hlen, List.take_left, List.map_map]
    rfl
  · rw [create_zip, ← hlen, List.take_left, List.map_map]
    rw [show (Prod.snd ∘ fun p : Nat × ZipRecord Img =>
        (zipImageName p.1 p.2.prompt file_format,
          ZipContent.imageFile p.2.image file_format)) =
        (fun r : ZipRecord Img => ZipContent.imageFile r.image file_format) ∘
          Prod.snd from rfl]
    rw [← List.map_map, List.enum_map_snd]
  · rw [create_zip, getLast?_append_singleton]
    rfl

/- ============================================================
   Thumbnail theorems (C9)
   ============================================================ -/

theorem floorDiv_bounds (a d : Nat) (hd : 1 ≤ d) :
    floorDiv a d * d ≤ a ∧ a < floorDiv a d * d + d := by
  have h := Nat.div_add_mod a d
  have hm : a % d < d := Nat.mod_lt a (by omega)
  rw [Nat.mul_comm d (a / d)] at h
  unfold floorDiv
  omega

theorem ceilDiv_bounds (a d : Nat) (hd : 1 ≤ d) (ha : 1 ≤ a) :
    a ≤ ceilDiv a d * d ∧ ceilDiv a d * d ≤ a + d - 1 := by
  have h := Nat.div_add_mod (a + d - 1) d
  have hm : (a + d - 1) % d < d := Nat.mod_lt _ (by omega)
  rw [Nat.mul_comm d ((a + d - 1) / d)] at h
  unfold ceilDiv
  omega

theorem ceilDiv_le (a d m : Nat) (hd : 1 ≤ d) (hle : a ≤ m * d) :
    ceilDiv a d ≤ m := by
  have h1 : a + d - 1 ≤ d - 1 + m * d := by omega
  have h2 : (a + d - 1) / d ≤ (d - 1 + m * d) / d := Nat.div_le_div_right h1
  have h3 : (d - 1 + m * d) / d = m := by
    rw [Nat.add_mul_div_right _ _ (show 0 < d by omega),
      Nat.div_eq_of_lt (by omega)]
    omega
  unfold ceilDiv
  omega

theorem floorDiv_le_ceilDiv (a d : Nat) (hd : 1 ≤ d) :
    floorDiv a d ≤ ceilDiv a d :=
  Nat.div_le_div_right (by omega)

/-- Whichever of floor and ceiling the round_aspect key picks, the clamped
result is at least 1, at most any integer bound m with a ≤ m d, and its
multiple by d stays within d of a. -/
theorem round_choice_bounds (a d m r : Nat) (hd : 1 ≤ d) (ha : 1 ≤ a)
    (hm : 1 ≤ m) (hle : a ≤ m * d)
    (hr : r = max (floorDiv a d) 1 ∨ r = max (ceilDiv a d) 1) :
    1 ≤ r ∧ r ≤ m ∧ Nat.dist (r * d) a ≤ d := by
  have hf := floorDiv_bounds a d hd
  have hc := ceilDiv_bounds a d hd ha
  have hcm := ceilDiv_le a d m hd hle
  have hfc := floorDiv_le_ceilDiv a d hd
  have hc1 : 1 ≤ ceilDiv a d := by
    by_contra hz
    have : ceilDiv a d = 0 := by omega
    rw [this] at hc
    simp at hc
    omega
  rcases hr with hr | hr
  · by_cases hq : 1 ≤ floorDiv a d
    · have hmax : max (floorDiv a d) 1 = floorDiv a d := Nat.max_eq_left hq
      rw [hmax] at hr
      subst hr
      refine ⟨hq, by omega, ?_⟩
      simp only [Nat.dist]
      omega
    · have hq0 : floorDiv a d = 0 := by omega
      rw [hq0] at hr hf
      simp at hr hf
      subst hr
      refine ⟨le_refl 1, hm, ?_⟩
      simp only [Nat.dist, Nat.one_mul]
      omega
  · have hmax : max (ceilDiv a d) 1 = ceilDiv a d := Nat.max_eq_left hc1
    rw [hmax] at hr
    subst hr
    refine ⟨hc1, hcm, ?_⟩
    simp only [Nat.dist]
    omega

theorem roundAspectX_cases (w h mh : Nat) :
    roundAspectX w h mh = max (floorDiv (mh * w) h) 1 ∨
      roundAspectX w h mh = max (ceilDiv (mh * w) h) 1 := by
  unfold roundAspectX
  by_cases hc : Nat.dist (w * mh) (floorDiv (mh * w) h * h) ≤
      Nat.dist (w * mh) (ceilDiv (mh * w) h * h)
  · left; simp [hc]
  · right; simp [hc]

theorem roundAspectY_cases (w h mw : Nat) :
    roundAspectY w h mw = max (floorDiv (mw * h) w) 1 ∨
      roundAspectY w h mw = max (ceilDiv (mw * h) w) 1 := by
  unfold roundAspectY
  by_cases hc : (if floorDiv (mw * h) w = 0 then true
      else if ceilDiv (mw * h) w = 0 then
        decide (Nat.dist (w * floorDiv (mw * h) w) (h * mw) = 0)
      else decide (Nat.dist (w * floorDiv (mw * h) w) (h * mw) *
          ceilDiv (mw * h) w ≤
        Nat.dist (w * ceilDiv (mw * h) w) (h * mw) * floorDiv (mw * h) w)) = true
  · left; simp only [hc, if_true]
  · right
    simp only [Bool.not_eq_true] at hc
    simp only [hc, Bool.false_eq_true, if_false]

/-- C9: for positive source dimensions and a positive max box, the
thumbnail fits the box in both dimensions, never exceeds the source in
either dimension, keeps both dimensions positive, and preserves the source
aspect ratio within rounding: the cross products rw·h and w·rh differ by
at most max w h (one rounding step in the scaled dimension).  The
create_thumbnail wrapper applies exactly this computation to a copy, so
the input raster is unchanged by construction. -/
theorem c9_thumbnail_fits_and_preserves_aspect :
    ∀ w h mw mh : Nat, 1 ≤ w → 1 ≤ h → 1 ≤ mw → 1 ≤ mh →
      (thumbnailSize w h mw mh).1 ≤ mw ∧
      (thumbnailSize w h mw mh).2 ≤ mh ∧
      (thumbnailSize w h mw mh).1 ≤ w ∧
      (thumbnailSize w h mw mh).2 ≤ h ∧
      1 ≤ (thumbnailSize w h mw mh).1 ∧
      1 ≤ (thumbnailSize w h mw mh).2 ∧
      Nat.dist ((thumbnailSize w h mw mh).1 * h)
          (w * (thumbnailSize w h mw mh).2) ≤ max w h ∧
      (∀ r : Raster, create_thumbnail r (mw, mh) =
        ⟨(thumbnailSize r.width r.height mw mh).1,
          (thumbnailSize r.width r.height mw mh).2⟩) := by
  intro w h mw mh hw hh hmw hmh
  by_cases hfit : w ≤ mw ∧ h ≤ mh
  · have hp : thumbnailSize w h mw mh = (w, h) := by
      unfold thumbnailSize
      simp [hfit]
    rw [hp]
    refine ⟨hfit.1, hfit.2, le_refl w, le_refl h, hw, hh, ?_, fun r => rfl⟩
    simp [Nat.dist]
  · by_cases hbr : w * mh ≤ mw * h
    · have hp : thumbnailSize w h mw mh = (roundAspectX w h mh, mh) := by
        unfold thumbnailSize
        simp [hfit, hbr]
      have hmh_le_h : mh ≤ h := by
        by_contra hlt
        have h1 : mw < w := by
          rcases Nat.lt_or_ge mw w with h2 | h2
          · exact h2
          · exact absurd ⟨by omega, by omega⟩ hfit
        have h3 : mw * h < w * h := Nat.mul_lt_mul_of_lt_of_le h1 (le_refl h) (by omega)
        have h4 : w * h < w * mh := by
          have := Nat.mul_lt_mul_of_le_of_lt (le_refl w) (show h < mh by omega) (by omega)
          omega
        omega
      have hle_box : mh * w ≤ mw * h := by
        rw [Nat.mul_comm mh w]
        exact hbr
      have hle_src : mh * w ≤ w * h := by
        rw [Nat.mul_comm mh w]
        exact Nat.mul_le_mul_left w hmh_le_h
      have ha : 1 ≤ mh * w := Nat.mul_le_mul hmh hw
      have hb1 := round_choice_bounds (mh * w) h mw (roundAspectX w h mh) hh ha hmw
        (by rw [Nat.mul_comm mw h] at hle_box ⊢; exact hle_box)
        (roundAspectX_cases w h mh)
      have hb2 := round_choice_bounds (mh * w) h w (roundAspectX w h mh) hh ha hw
        (by rw [Nat.mul_comm w h] at hle_src ⊢; exact hle_src)
        (roundAspectX_cases w h mh)
      rw [hp]
      refine ⟨hb1.2.1, le_refl mh, hb2.2.1, hmh_le_h, hb1.1, hmh, ?_, fun r => rfl⟩
      have hdist := hb1.2.2
      have hcomm : Nat.dist (roundAspectX w h mh * h) (w * mh) =
          Nat.dist (roundAspectX w h mh * h) (mh * w) := by
        rw [Nat.mul_comm w mh]
      rw [hcomm]
      omega
    · have hp : thumbnailSize w h mw mh = (mw, roundAspectY w h mw) := by
        unfold thumbnailSize
        simp [hfit, hbr]
      have hbr' : mw * h < w * mh := by omega
      have hmw_le_w : mw ≤ w := by
        by_contra hlt
        have h1 : mh < h := by
          rcases Nat.lt_or_ge mh h with h2 | h2
          · exact h2
          · exact absurd ⟨by omega, by omega⟩ hfit
        have h3 : w * mh < w * h := by
          have := Nat.mul_lt_mul_of_le_of_lt (le_refl w) h1 (by omega)
          omega
        have h4 : w * h ≤ mw * h := Nat.mul_le_mul_right h (by omega)
        omega
      have hle_box : mw * h ≤ mh * w := by
        rw [Nat.mul_comm mh w]
        omega
      have hle_src : mw * h ≤ h * w := by
        rw [Nat.mul_comm h w]
        exact Nat.mul_le_mul_right h hmw_le_w
      have ha : 1 ≤ mw * h := Nat.mul_le_mul hmw hh
      have hb1 := round_choice_bounds (mw * h) w mh (roundAspectY w h mw) hw ha hmh
        (by rw [Nat.mul_comm mh w] at hle_box ⊢; exact hle_box)
        (roundAspectY_cases w h mw)
      have hb2 := round_choice_bounds (mw * h) w h (roundAspectY w h mw) hw ha hh
        (by rw [Nat.mul_comm h w] at hle_src ⊢; exact hle_src)
        (roundAspectY_cases w h mw)
      rw [hp]
      refine ⟨le_refl mw, hb1.2.1, hmw_le_w, hb2.2.1, hmw, hb1.1, ?_, fun r => rfl⟩
      have hdist := hb1.2.2
      have hcomm : Nat.dist (mw * h) (w * roundAspectY w h mw) =
          Nat.dist (roundAspectY w h mw * w) (mw * h) := by
        rw [Nat.dist_comm, Nat.mul_comm w (roundAspectY w h mw)]
      rw [hcomm]
      omega

/-- C9 witness: a 512x512 source against the default 256x256 box stays
within every stated bound, and a 1024x768 source thumbnails to 256x192. -/
theorem c9_thumbnail_fits_and_preserves_aspect_witness :
    (thumbnailSize 512 512 256 256).1 ≤ 256 ∧
    (thumbnailSize 512 512 256 256).2 ≤ 256 ∧
    (thumbnailSize 512 512 256 256).1 ≤ 512 ∧
    (thumbnailSize 512 512 256 256).2 ≤ 512 ∧
    Nat.dist ((thumbnailSize 512 512 256 256).1 * 512)
        (512 * (thumbnailSize 512 512 256 256).2) ≤ max 512 512 ∧
    create_thumbnail ⟨1024, 768⟩ (256, 256) = ⟨256, 192⟩ := by
  have hb := c9_thumbnail_fits_and_preserves_aspect 512 512 256 256
    (by decide) (by decide) (by decide) (by decide)
  exact ⟨hb.1, hb.2.1, hb.2.2.1, hb.2.2.2.1, hb.2.2.2.2.2.2.1, by decide⟩

end AIImageGen
